import Mathlib

/-!
Verification of the pond-slime message-purge bot (src/main.rs, src/schema.rs).

Shallow embedding conventions:
  - Timestamps are `Int` seconds (chrono `DateTime<Utc>` instants); durations
    such as `Duration::days(7)` become explicit second counts.
  - The lazy `messages_iter` history stream becomes a `List` of
    `Except TransportError Msg` values, newest first; `try_collect` becomes an
    explicit fold that surfaces the first error.
  - The async side effects of `purge_old` (defer, prompt send, the
    button-disable response, the followup, deletion calls) become an explicit
    `Action` trace paired with the `Result` value of the command, with the
    component-interaction outcome supplied as an input.
  - `f64` duration estimates are modelled with `ℚ` (exact division); the
    claims about them concern the formula, sign and scaling, not rounding.
  - The two throttled deletion loops become trace-producing functions whose
    events record platform delete calls, counter increments (`consume`) and
    meter sleeps, mirroring `bulk_delete` and `slow_bulk_delete` line by line.
-/

namespace PondSlime

/-- `SlimeError::Serenity` transport failures, abstracted to an error code. -/
structure TransportError where
  code : Nat
deriving DecidableEq, Repr

/-- A platform message: identifier and creation timestamp (main.rs uses
`serenity::Message`; only `timestamp` and identity matter to the core). -/
structure Msg where
  id : Nat
  timestamp : Int
deriving DecidableEq, Repr

/-- Seconds in a day: `chrono::Duration::days(1)`. -/
def daySecs : Int := 86400

/-- Seconds in a week: `chrono::Duration::weeks(1)`. -/
def weekSecs : Int := 7 * 86400

/-- `METER_LIMIT` from main.rs line 26. -/
def METER_LIMIT : Nat := 500

/-- The `skip_while` predicate of `messages_before` (main.rs lines 86-92):
an `Ok` message is skipped while its timestamp is `>= before`; an `Err`
item maps to `false` (`unwrap_or(false)`), so it stops the skipping. -/
def skip_pred (before : Int) (v : Except TransportError Msg) : Bool :=
  match v with
  | Except.ok msg => decide (before ≤ msg.timestamp)
  | Except.error _ => false

/-- `TryStreamExt::try_collect`: collect the `Ok` items, surfacing the first
`Err` and returning no partial list. -/
def tryCollect : List (Except TransportError Msg) → Except TransportError (List Msg)
  | [] => Except.ok []
  | Except.error e :: _ => Except.error e
  | Except.ok m :: rest => (tryCollect rest).map (fun l => m :: l)

/-- `messages_before` (main.rs lines 79-95): drop the newest-first prefix of
messages with timestamp `>= before`, then `try_collect` the remainder. -/
def messages_before (before : Int) (history : List (Except TransportError Msg)) :
    Except TransportError (List Msg) :=
  tryCollect (history.dropWhile (skip_pred before))

/-- The index of the first message (newest-first) with timestamp strictly
before `bulkCutoff` (main.rs lines 176-179: `.enumerate().find(...)`). -/
def slow_index (bulkCutoff : Int) : List Msg → Option Nat
  | [] => none
  | m :: rest =>
    if m.timestamp < bulkCutoff then some 0
    else (slow_index bulkCutoff rest).map (fun i => i + 1)

/-- `minutes_to_delete` for the slow band (main.rs line 182):
`old_message_count / METER_LIMIT` as a division of reals, modelled in `ℚ`. -/
def minutes_to_delete_slow (old_message_count : Nat) : ℚ :=
  (old_message_count : ℚ) / (METER_LIMIT : ℚ)

/-- `minutes_to_delete` for the bulk band (main.rs lines 201-202):
`bulk_count / (METER_LIMIT * 100)` modelled in `ℚ`. -/
def minutes_to_delete_bulk (bulk_count : Nat) : ℚ :=
  (bulk_count : ℚ) / ((METER_LIMIT * 100 : Nat) : ℚ)

/-- `old_message_count` (main.rs line 181): `messages.len() - idx` when a
message older than the bulk cutoff exists, else no slow band (0). -/
def old_message_count (bulkCutoff : Int) (messages : List Msg) : Nat :=
  match slow_index bulkCutoff messages with
  | some idx => messages.length - idx
  | none => 0

/-- The slow-band minutes term of main.rs lines 176-197: the `if let Some`
branch yields `old_message_count / METER_LIMIT`, the `else` branch yields 0. -/
def slowMinutes (bulkCutoff : Int) (messages : List Msg) : ℚ :=
  match slow_index bulkCutoff messages with
  | some idx => minutes_to_delete_slow (messages.length - idx)
  | none => 0

/-- `bulk_count` (main.rs line 199): `slow_index.unwrap_or(0)`. -/
def bulk_count (bulkCutoff : Int) (messages : List Msg) : Nat :=
  (slow_index bulkCutoff messages).getD 0

/-- The bulk-band minutes term of main.rs lines 200-214: computed only when
`bulk_count > 0`, else 0. -/
def bulkMinutes (bulkCutoff : Int) (messages : List Msg) : ℚ :=
  if 0 < bulk_count bulkCutoff messages then
    minutes_to_delete_bulk (bulk_count bulkCutoff messages)
  else 0

/-- The bulk band determined by the computed indices: the first `bulk_count`
messages of the window (the messages main.rs lines 199-214 report as
bulk-deletable, `messages[0]` through `messages[bulk_count-1]`). -/
def bulk_band (bulkCutoff : Int) (messages : List Msg) : List Msg :=
  messages.take (bulk_count bulkCutoff messages)

/-- The slow band determined by the computed indices: the messages from
`slow_index` onward (main.rs lines 180-194), none when `slow_index` is
`None`. -/
def slow_band (bulkCutoff : Int) (messages : List Msg) : List Msg :=
  match slow_index bulkCutoff messages with
  | some idx => messages.drop idx
  | none => []

/-- The `debug_assert!` guard opening `bulk_delete` (main.rs lines 102-104):
index the oldest message `messages[messages.len() - 1]` (`none` models the
panic on an empty slice) and test `timestamp > Utc::now() - weeks(2)`. -/
def bulkDeleteAssert (now : Int) (messages : List Msg) : Option Bool :=
  (messages[messages.length - 1]?).map
    (fun m => decide (now - 2 * weekSecs < m.timestamp))

/-- Observable events of one throttled deletion run. -/
inductive Ev where
  | delBatch : List Msg → Ev
  | delSingle : Msg → Ev
  | consume : Ev
  | sleep : Ev
deriving DecidableEq, Repr

/-- `slice::chunks`: non-overlapping chunks of at most `n` elements. -/
def chunksOf (n : Nat) (l : List Msg) : List (List Msg) :=
  if h : l = [] ∨ n = 0 then []
  else l.take n :: chunksOf n (l.drop n)
termination_by l.length
decreasing_by
  have h1 : l ≠ [] := fun hl => h (Or.inl hl)
  have h2 : n ≠ 0 := fun hn => h (Or.inr hn)
  have h3 : 0 < l.length := List.length_pos.mpr h1
  simp only [List.length_drop]
  omega

/-- The metered loop body of `bulk_delete` (main.rs lines 106-120): one batch
delete per chunk unless `dry_run`, one counter increment per chunk, a sleep
and counter reset once the counter reaches `METER_LIMIT`. -/
def bulkLoop (dryRun : Bool) : Nat → List (List Msg) → List Ev
  | _, [] => []
  | count, chunk :: rest =>
    (if dryRun then [] else [Ev.delBatch chunk]) ++
      Ev.consume ::
        (if METER_LIMIT ≤ count + 1 then Ev.sleep :: bulkLoop dryRun 0 rest
         else bulkLoop dryRun (count + 1) rest)

/-- `bulk_delete`'s loop over `messages.chunks(100)` (main.rs lines 106-122),
as the trace of events it produces. -/
def bulk_delete (dryRun : Bool) (messages : List Msg) : List Ev :=
  bulkLoop dryRun 0 (chunksOf 100 messages)

/-- The metered loop body of `slow_bulk_delete` (main.rs lines 130-144): one
single-message delete per message unless `dry_run`, with the same meter. -/
def slowLoop (dryRun : Bool) : Nat → List Msg → List Ev
  | _, [] => []
  | count, m :: rest =>
    (if dryRun then [] else [Ev.delSingle m]) ++
      Ev.consume ::
        (if METER_LIMIT ≤ count + 1 then Ev.sleep :: slowLoop dryRun 0 rest
         else slowLoop dryRun (count + 1) rest)

/-- `slow_bulk_delete` (main.rs lines 125-147) as the trace of events it
produces. -/
def slow_bulk_delete (dryRun : Bool) (messages : List Msg) : List Ev :=
  slowLoop dryRun 0 messages

/-- `true` for every event except platform delete calls. -/
def nonDel : Ev → Bool
  | Ev.delBatch _ => false
  | Ev.delSingle _ => false
  | _ => true

/-- Counter segmentation of a trace: the number of `consume` events between
consecutive `sleep` events (`acc` is the count already consumed in the open
window); delete events do not affect the segmentation. -/
def opSegments : List Ev → Nat → List Nat
  | [], acc => [acc]
  | Ev.consume :: rest, acc => opSegments rest (acc + 1)
  | Ev.sleep :: rest, acc => acc :: opSegments rest 0
  | Ev.delBatch _ :: rest, acc => opSegments rest acc
  | Ev.delSingle _ :: rest, acc => opSegments rest acc

/-- The two button choices of the confirmation prompt. -/
inductive Choice where
  | yes
  | no
deriving DecidableEq, Repr

instance {ε α : Type} [DecidableEq ε] [DecidableEq α] : DecidableEq (Except ε α) :=
  fun x y =>
    match x, y with
    | Except.ok a, Except.ok b =>
      if h : a = b then isTrue (by rw [h])
      else isFalse (fun hc => h (Except.ok.inj hc))
    | Except.error e, Except.error f =>
      if h : e = f then isTrue (by rw [h])
      else isFalse (fun hc => h (Except.error.inj hc))
    | Except.ok _, Except.error _ => isFalse (fun hc => Except.noConfusion hc)
    | Except.error _, Except.ok _ => isFalse (fun hc => Except.noConfusion hc)

/-- The outcome supplied by `ComponentInteractionCollector` when a button
press arrives within the 120-second window: which button was pressed and the
transport results of the two response calls the handler then makes. -/
structure InteractionOutcome where
  choice : Choice
  disableResult : Except TransportError Unit
  followupResult : Except TransportError Unit
deriving DecidableEq, Repr

/-- The data of the confirmation summary message built in main.rs lines
171-216 (counts and estimated minutes; the prose and links are elided). -/
structure PromptSummary where
  bulkCount : Nat
  slowCount : Nat
  minutes : ℚ
deriving Repr

/-- Externally visible actions of one `purge_old` invocation. -/
inductive Action where
  | deferred
  | sendPrompt (summary : PromptSummary)
  | disableButtons
  | logTransportError (e : TransportError)
  | followup (choice : String)
  | bulkDeleteCall (msgs : List Msg) (dryRun : Bool)
  | slowDeleteCall (msgs : List Msg) (dryRun : Bool)

/-- `true` exactly on invocations of the throttled deletion executor. -/
def Action.isExec : Action → Bool
  | Action.bulkDeleteCall _ _ => true
  | Action.slowDeleteCall _ _ => true
  | _ => false

/-- `true` exactly on the ephemeral followup acknowledgment. -/
def Action.isFollowup : Action → Bool
  | Action.followup _ => true
  | _ => false

/-- `true` exactly on the confirmation-prompt send. -/
def Action.isPrompt : Action → Bool
  | Action.sendPrompt _ => true
  | _ => false

/-- `purge_old` (main.rs lines 156-260): the full command pipeline, as the
trace of actions performed and the command's `Result`.  `now` stands for the
two `Utc::now()` calls, `history` for the lazy message stream of the supplied
channel, `interaction` for the collector outcome (`none` models the
120-second timeout).  The resolved `dry_run` value is bound as in the source
(line 163, with `cfg!(debug)` false in a release build) but is never
consulted afterwards, because no deletion executor is ever invoked. -/
def purge_old (now : Int) (dryRunArg : Option Bool)
    (history : List (Except TransportError Msg))
    (interaction : Option InteractionOutcome) :
    List Action × Except TransportError Unit :=
  let before := now - 7 * daySecs
  let _dry_run := dryRunArg.getD false
  match messages_before before history with
  | Except.error e => ([Action.deferred], Except.error e)
  | Except.ok messages =>
    if messages.isEmpty then ([Action.deferred], Except.ok ())
    else
      let bulkCutoff := now - (13 * daySecs + 12 * 3600)
      let summary : PromptSummary :=
        { bulkCount := bulk_count bulkCutoff messages
          slowCount := old_message_count bulkCutoff messages
          minutes := slowMinutes bulkCutoff messages + bulkMinutes bulkCutoff messages }
      let sent := [Action.deferred, Action.sendPrompt summary]
      match interaction with
      | none => (sent, Except.ok ())
      | some io =>
        let attempted := sent ++ [Action.disableButtons]
        match io.disableResult with
        | Except.error e =>
            (attempted ++ [Action.logTransportError e], Except.error e)
        | Except.ok _ =>
          let answer := match io.choice with
            | Choice.yes => "yes"
            | Choice.no => "no"
          let followed := attempted ++ [Action.followup answer]
          match io.followupResult with
          | Except.error e =>
              (followed ++ [Action.logTransportError e], Except.error e)
          | Except.ok _ => (followed, Except.ok ())

/-- A row of the `admin_bot_spam_channel` table (schema.rs: primary key
`guild_id`, columns `channel_id` and `guild_id`). -/
structure BotSpamRow where
  channel_id : Int
  guild_id : Int
deriving DecidableEq, Repr

/-- The persisted store: the `guilds` table and the `admin_bot_spam_channel`
table of schema.rs. -/
structure Db where
  guilds : List Int
  botSpamRows : List BotSpamRow
deriving DecidableEq, Repr

/-- The `guilds` insert of main.rs lines 288-292:
`insert_into(guilds).values(guild).on_conflict_do_nothing()`. -/
def insert_guild_on_conflict_do_nothing (rows : List Int) (g : Int) : List Int :=
  if g ∈ rows then rows else rows ++ [g]

/-- The `admin_bot_spam_channel` insert of main.rs lines 294-305: insert
`(channel_id, guild_id)`; on conflict of `guild_id`, `do_update` sets only
`guild_id = excluded(guild_id)` — the stored `channel_id` is left unchanged. -/
def upsert_bot_spam_channel (rows : List BotSpamRow) (g c : Int) : List BotSpamRow :=
  if rows.any (fun r => r.guild_id == g) then
    rows.map (fun r => if r.guild_id == g then { r with guild_id := g } else r)
  else rows ++ [{ channel_id := c, guild_id := g }]

/-- The database effect of the `admin_bot_spam_channel` command
(main.rs lines 270-321). -/
def admin_bot_spam_channel (db : Db) (guild_id channel_id : Int) : Db :=
  { guilds := insert_guild_on_conflict_do_nothing db.guilds guild_id
    botSpamRows := upsert_bot_spam_channel db.botSpamRows guild_id channel_id }

/-! ### Shared helper lemmas -/

theorem getElem_opt_last {α : Type} (l : List α) (h : l ≠ []) :
    l[l.length - 1]? = some (l.getLast h) := by
  rw [← List.getLast?_eq_getElem?, List.getLast?_eq_getLast l h]

theorem opSegments_ne_nil (l : List Ev) (acc : Nat) : opSegments l acc ≠ [] := by
  induction l generalizing acc with
  | nil => simp [opSegments]
  | cons e rest ih =>
    cases e with
    | delBatch ms => simpa [opSegments] using ih acc
    | delSingle m => simpa [opSegments] using ih acc
    | consume => simpa [opSegments] using ih (acc + 1)
    | sleep => simp [opSegments]

/-- Meter invariant of the `bulk_delete` loop: starting with a partially
filled window of `c` consumed operations, every window segment stays within
`METER_LIMIT`, and every window closed by a sleep holds exactly
`METER_LIMIT` operations. -/
theorem bulkLoop_segments (dry : Bool) (l : List (List Msg)) :
    ∀ c : Nat, c < METER_LIMIT →
      (∀ s ∈ opSegments (bulkLoop dry c l) c, s ≤ METER_LIMIT) ∧
      (∀ s ∈ (opSegments (bulkLoop dry c l) c).dropLast, s = METER_LIMIT) := by
  induction l with
  | nil =>
    intro c hc
    constructor
    · intro s hs
      simp only [bulkLoop, opSegments, List.mem_singleton] at hs
      omega
    · intro s hs
      simp [bulkLoop, opSegments] at hs
  | cons chunk rest ih =>
    intro c hc
    have hstep : opSegments (bulkLoop dry c (chunk :: rest)) c =
        opSegments
          (if METER_LIMIT ≤ c + 1 then Ev.sleep :: bulkLoop dry 0 rest
           else bulkLoop dry (c + 1) rest) (c + 1) := by
      cases dry <;> simp [bulkLoop, opSegments]
    by_cases h500 : METER_LIMIT ≤ c + 1
    · rw [hstep, if_pos h500]
      have hrec := ih 0 (by simp [METER_LIMIT])
      constructor
      · intro s hs
        simp only [opSegments] at hs
        rcases List.mem_cons.mp hs with h1 | h1
        · omega
        · exact hrec.1 s h1
      · intro s hs
        simp only [opSegments] at hs
        rw [List.dropLast_cons_of_ne_nil (opSegments_ne_nil _ _)] at hs
        rcases List.mem_cons.mp hs with h1 | h1
        · omega
        · exact hrec.2 s h1
    · rw [hstep, if_neg h500]
      exact ih (c + 1) (by omega)

/-- Meter invariant of the `slow_bulk_delete` loop, identical in structure to
`bulkLoop_segments` because the source duplicates the meter logic. -/
theorem slowLoop_segments (dry : Bool) (l : List Msg) :
    ∀ c : Nat, c < METER_LIMIT →
      (∀ s ∈ opSegments (slowLoop dry c l) c, s ≤ METER_LIMIT) ∧
      (∀ s ∈ (opSegments (slowLoop dry c l) c).dropLast, s = METER_LIMIT) := by
  induction l with
  | nil =>
    intro c hc
    constructor
    · intro s hs
      simp only [slowLoop, opSegments, List.mem_singleton] at hs
      omega
    · intro s hs
      simp [slowLoop, opSegments] at hs
  | cons m rest ih =>
    intro c hc
    have hstep : opSegments (slowLoop dry c (m :: rest)) c =
        opSegments
          (if METER_LIMIT ≤ c + 1 then Ev.sleep :: slowLoop dry 0 rest
           else slowLoop dry (c + 1) rest) (c + 1) := by
      cases dry <;> simp [slowLoop, opSegments]
    by_cases h500 : METER_LIMIT ≤ c + 1
    · rw [hstep, if_pos h500]
      have hrec := ih 0 (by simp [METER_LIMIT])
      constructor
      · intro s hs
        simp only [opSegments] at hs
        rcases List.mem_cons.mp hs with h1 | h1
        · omega
        · exact hrec.1 s h1
      · intro s hs
        simp only [opSegments] at hs
        rw [List.dropLast_cons_of_ne_nil (opSegments_ne_nil _ _)] at hs
        rcases List.mem_cons.mp hs with h1 | h1
        · omega
        · exact hrec.2 s h1
    · rw [hstep, if_neg h500]
      exact ih (c + 1) (by omega)

/-- C6: in both deletion loops every consumed operation (one bulk batch or
one single delete) increments the counter; the counter segmentation of the
produced trace shows at most `METER_LIMIT` operations between consecutive
window resets, and a reset (sleep) occurs exactly when the counter reaches
`METER_LIMIT`: every segment closed by a sleep holds exactly `METER_LIMIT`
operations and no segment exceeds it. -/
theorem C6_meter_window_bound (dryRun : Bool) (messages : List Msg) :
    ((opSegments (bulk_delete dryRun messages) 0).all
        (fun s => decide (s ≤ METER_LIMIT)) = true ∧
      ((opSegments (bulk_delete dryRun messages) 0).dropLast).all
        (fun s => decide (s = METER_LIMIT)) = true) ∧
    ((opSegments (slow_bulk_delete dryRun messages) 0).all
        (fun s => decide (s ≤ METER_LIMIT)) = true ∧
      ((opSegments (slow_bulk_delete dryRun messages) 0).dropLast).all
        (fun s => decide (s = METER_LIMIT)) = true) := by
  have hb := bulkLoop_segments dryRun (chunksOf 100 messages) 0 (by simp [METER_LIMIT])
  have hsl := slowLoop_segments dryRun messages 0 (by simp [METER_LIMIT])
  refine ⟨⟨?_, ?_⟩, ?_, ?_⟩ <;>
    simp only [bulk_delete, slow_bulk_delete, List.all_eq_true, decide_eq_true_eq]
  · exact hb.1
  · exact hb.2
  · exact hsl.1
  · exact hsl.2

/-- A dry `bulk_delete` loop run issues no platform delete events. -/
theorem bulkLoop_dry_all_nonDel (l : List (List Msg)) :
    ∀ c : Nat, (bulkLoop true c l).all nonDel = true := by
  induction l with
  | nil => intro c; simp [bulkLoop]
  | cons chunk rest ih =>
    intro c
    by_cases h : METER_LIMIT ≤ c + 1 <;>
      simp [bulkLoop, h, nonDel, ih]

/-- Erasing the delete events from a real `bulk_delete` loop run leaves
exactly the dry run with the same counter state. -/
theorem bulkLoop_filter_nonDel (l : List (List Msg)) :
    ∀ c : Nat, (bulkLoop false c l).filter nonDel = bulkLoop true c l := by
  induction l with
  | nil => intro c; simp [bulkLoop]
  | cons chunk rest ih =>
    intro c
    by_cases h : METER_LIMIT ≤ c + 1 <;>
      simp [bulkLoop, h, nonDel, List.filter_cons, ih]

/-- A dry `slow_bulk_delete` loop run issues no platform delete events. -/
theorem slowLoop_dry_all_nonDel (l : List Msg) :
    ∀ c : Nat, (slowLoop true c l).all nonDel = true := by
  induction l with
  | nil => intro c; simp [slowLoop]
  | cons m rest ih =>
    intro c
    by_cases h : METER_LIMIT ≤ c + 1 <;>
      simp [slowLoop, h, nonDel, ih]

/-- Erasing the delete events from a real `slow_bulk_delete` loop run leaves
exactly the dry run with the same counter state. -/
theorem slowLoop_filter_nonDel (l : List Msg) :
    ∀ c : Nat, (slowLoop false c l).filter nonDel = slowLoop true c l := by
  induction l with
  | nil => intro c; simp [slowLoop]
  | cons m rest ih =>
    intro c
    by_cases h : METER_LIMIT ≤ c + 1 <;>
      simp [slowLoop, h, nonDel, List.filter_cons, ih]

/-- C9: with `dry_run = true` each deletion loop issues zero platform delete
calls, and its trace (counter increments and throttle sleeps) is exactly the
trace of the `dry_run = false` run on the same input with the delete calls
erased: the walk, the counter increments and the sleeps coincide. -/
theorem C9_dry_run_trace_equiv (messages : List Msg) :
    (bulk_delete true messages).all nonDel = true ∧
    (bulk_delete false messages).filter nonDel = bulk_delete true messages ∧
    (slow_bulk_delete true messages).all nonDel = true ∧
    (slow_bulk_delete false messages).filter nonDel = slow_bulk_delete true messages := by
  refine ⟨?_, ?_, ?_, ?_⟩
  · exact bulkLoop_dry_all_nonDel (chunksOf 100 messages) 0
  · exact bulkLoop_filter_nonDel (chunksOf 100 messages) 0
  · exact slowLoop_dry_all_nonDel messages 0
  · exact slowLoop_filter_nonDel messages 0

/-- The first-older-message index, when it exists, lies inside the window. -/
theorem slow_index_lt_length (bulkCutoff : Int) (messages : List Msg) :
    ∀ idx : Nat, slow_index bulkCutoff messages = some idx → idx < messages.length := by
  induction messages with
  | nil => intro idx h; simp [slow_index] at h
  | cons m rest ih =>
    intro idx h
    simp only [slow_index] at h
    by_cases hm : m.timestamp < bulkCutoff
    · rw [if_pos hm] at h
      injection h with h
      simp [← h]
    · rw [if_neg hm] at h
      cases hsi : slow_index bulkCutoff rest with
      | none => rw [hsi] at h; simp at h
      | some j =>
        rw [hsi] at h
        simp at h
        have hj := ih j hsi
        simp only [List.length_cons]
        omega

/-- C8: the estimates the confirmation summary is built from satisfy
`slowMinutes = len(slow_band) / METER_LIMIT` and
`bulkMinutes = len(bulk_band) / (METER_LIMIT * 100)` (both stated over the
bands the code computes), both are nonnegative, and each estimate scales
linearly with its band size at the fixed `METER_LIMIT`. -/
theorem C8_estimate_formulas (bulkCutoff : Int) (messages : List Msg) :
    slowMinutes bulkCutoff messages =
      ((slow_band bulkCutoff messages).length : ℚ) / (METER_LIMIT : ℚ) ∧
    bulkMinutes bulkCutoff messages =
      ((bulk_band bulkCutoff messages).length : ℚ) / ((METER_LIMIT * 100 : Nat) : ℚ) ∧
    0 ≤ slowMinutes bulkCutoff messages ∧
    0 ≤ bulkMinutes bulkCutoff messages ∧
    (∀ k n : Nat, minutes_to_delete_slow (k * n) = (k : ℚ) * minutes_to_delete_slow n) ∧
    (∀ k n : Nat, minutes_to_delete_bulk (k * n) = (k : ℚ) * minutes_to_delete_bulk n) := by
  have hle : bulk_count bulkCutoff messages ≤ messages.length := by
    unfold bulk_count
    cases hsi : slow_index bulkCutoff messages with
    | none => simp
    | some idx => simpa using Nat.le_of_lt (slow_index_lt_length bulkCutoff messages idx hsi)
  refine ⟨?_, ?_, ?_, ?_, ?_, ?_⟩
  · unfold slowMinutes slow_band
    cases hsi : slow_index bulkCutoff messages with
    | none => simp [minutes_to_delete_slow]
    | some idx => simp [minutes_to_delete_slow, List.length_drop]
  · unfold bulkMinutes bulk_band
    rw [List.length_take, Nat.min_eq_left hle]
    by_cases hpos : 0 < bulk_count bulkCutoff messages
    · rw [if_pos hpos]
      rfl
    · rw [if_neg hpos]
      have h0 : bulk_count bulkCutoff messages = 0 := by omega
      simp [h0]
  · unfold slowMinutes
    cases slow_index bulkCutoff messages with
    | none => simp
    | some idx =>
      unfold minutes_to_delete_slow
      positivity
  · unfold bulkMinutes
    by_cases hpos : 0 < bulk_count bulkCutoff messages
    · rw [if_pos hpos]
      unfold minutes_to_delete_bulk
      positivity
    · rw [if_neg hpos]
  · intro k n
    unfold minutes_to_delete_slow
    push_cast
    ring
  · intro k n
    unfold minutes_to_delete_bulk
    push_cast
    ring

/-- A newest-first history: timestamps weakly decrease along the list. -/
def descending : List Msg → Bool
  | [] => true
  | [_] => true
  | a :: b :: rest => decide (b.timestamp ≤ a.timestamp) && descending (b :: rest)

theorem descending_tail (a : Msg) (l : List Msg)
    (h : descending (a :: l) = true) : descending l = true := by
  cases l with
  | nil => rfl
  | cons b t =>
    simp only [descending, Bool.and_eq_true] at h
    exact h.2

theorem descending_head_ge (a : Msg) (l : List Msg)
    (h : descending (a :: l) = true) :
    ∀ m ∈ l, m.timestamp ≤ a.timestamp := by
  induction l generalizing a with
  | nil => intro m hm; simp at hm
  | cons b t ih =>
    intro m hm
    simp only [descending, Bool.and_eq_true, decide_eq_true_eq] at h
    rcases List.mem_cons.mp hm with hmb | hmt
    · rw [hmb]; exact h.1
    · exact le_trans (ih b h.2 m hmt) h.1

theorem tryCollect_map_ok (l : List Msg) :
    tryCollect (l.map Except.ok) = Except.ok l := by
  induction l with
  | nil => rfl
  | cons m rest ih => simp [tryCollect, ih, Except.map]

theorem tryCollect_surfaces_error (l : List (Except TransportError Msg))
    (h : ∃ e, Except.error e ∈ l) :
    ∃ e, Except.error e ∈ l ∧ tryCollect l = Except.error e := by
  induction l with
  | nil => rcases h with ⟨e, he⟩; simp at he
  | cons v rest ih =>
    cases v with
    | error e => exact ⟨e, List.mem_cons_self _ _, rfl⟩
    | ok m =>
      rcases h with ⟨e, he⟩
      rcases List.mem_cons.mp he with habs | hrest
      · exact absurd habs (by simp)
      · rcases ih ⟨e, hrest⟩ with ⟨f, hf, hcoll⟩
        refine ⟨f, List.mem_cons_of_mem _ hf, ?_⟩
        simp [tryCollect, hcoll, Except.map]

theorem dropWhile_skip_pred_map_ok (before : Int) (l : List Msg) :
    (l.map Except.ok).dropWhile (skip_pred before) =
      (l.dropWhile (fun m => decide (before ≤ m.timestamp))).map Except.ok := by
  induction l with
  | nil => rfl
  | cons m rest ih =>
    by_cases hm : before ≤ m.timestamp <;>
      simp [List.dropWhile_cons, skip_pred, hm, ih]

theorem dropWhile_error_stays (before : Int)
    (l : List (Except TransportError Msg)) (h : ∃ e, Except.error e ∈ l) :
    ∃ e, Except.error e ∈ l.dropWhile (skip_pred before) := by
  induction l with
  | nil => rcases h with ⟨e, he⟩; simp at he
  | cons v rest ih =>
    cases v with
    | error e =>
      refine ⟨e, ?_⟩
      simp [List.dropWhile_cons, skip_pred]
    | ok m =>
      rcases h with ⟨e, he⟩
      rcases List.mem_cons.mp he with habs | hrest
      · exact absurd habs (by simp)
      · by_cases hm : before ≤ m.timestamp
        · rcases ih ⟨e, hrest⟩ with ⟨f, hf⟩
          refine ⟨f, ?_⟩
          simpa [List.dropWhile_cons, skip_pred, hm] using hf
        · exact ⟨e, by simp [List.dropWhile_cons, skip_pred, hm, List.mem_cons.mpr (Or.inr hrest)]⟩

theorem dropWhile_all_lt (before : Int) (l : List Msg)
    (h : descending l = true) :
    ∀ m ∈ l.dropWhile (fun m => decide (before ≤ m.timestamp)),
      m.timestamp < before := by
  induction l with
  | nil => intro m hm; simp at hm
  | cons a rest ih =>
    intro m hm
    by_cases ha : before ≤ a.timestamp
    · simp only [List.dropWhile_cons, ha, decide_eq_true_eq, if_pos] at hm
      exact ih (descending_tail a rest h) m hm
    · simp only [List.dropWhile_cons, decide_eq_true_eq, ha, if_false] at hm
      rcases List.mem_cons.mp hm with hma | hmr
      · rw [hma]; omega
      · have := descending_head_ge a rest h m hmr
        omega

/-- C7: on an error-free newest-first history, `messages_before` returns
exactly the suffix starting at the first message with timestamp before
`before` (the skipped prefix is every newer-or-equal message), every element
of the returned window is strictly older than `before`, and on any history
containing an enumeration error the first such error is surfaced as the
result with no partial window. -/
theorem C7_messages_before_window (before : Int) (msgs : List Msg)
    (hsorted : descending msgs = true) :
    messages_before before (msgs.map Except.ok) =
      Except.ok (msgs.dropWhile (fun m => decide (before ≤ m.timestamp))) ∧
    (∀ m ∈ msgs.dropWhile (fun m => decide (before ≤ m.timestamp)),
      m.timestamp < before) ∧
    (∀ history : List (Except TransportError Msg),
      (∃ e, Except.error e ∈ history) →
      ∃ e, messages_before before history = Except.error e) := by
  refine ⟨?_, dropWhile_all_lt before msgs hsorted, ?_⟩
  · unfold messages_before
    rw [dropWhile_skip_pred_map_ok, tryCollect_map_ok]
  · intro history herr
    unfold messages_before
    rcases dropWhile_error_stays before history herr with ⟨e, he⟩
    rcases tryCollect_surfaces_error _ ⟨e, he⟩ with ⟨f, _, hcoll⟩
    exact ⟨f, hcoll⟩

/-- Witness for `C7_messages_before_window` at a concrete two-element
descending history. -/
theorem C7_witness :
    descending [Msg.mk 1 5, Msg.mk 2 (-3)] = true ∧
    (messages_before 0 ([Msg.mk 1 5, Msg.mk 2 (-3)].map Except.ok) =
        Except.ok ([Msg.mk 1 5, Msg.mk 2 (-3)].dropWhile
          (fun m => decide ((0 : Int) ≤ m.timestamp))) ∧
      (∀ m ∈ [Msg.mk 1 5, Msg.mk 2 (-3)].dropWhile
          (fun m => decide ((0 : Int) ≤ m.timestamp)),
        m.timestamp < 0) ∧
      (∀ history : List (Except TransportError Msg),
        (∃ e, Except.error e ∈ history) →
        ∃ e, messages_before 0 history = Except.error e)) :=
  ⟨by decide, C7_messages_before_window 0 [Msg.mk 1 5, Msg.mk 2 (-3)] (by decide)⟩

/-- Counterexample to C4 as stated: a batch whose oldest message is three
weeks old — hence "not less than two weeks old", satisfying the property the
claim says is asserted — makes the code's `debug_assert!` condition evaluate
to `false` (the assertion would fire): the implementation asserts the
opposite direction. -/
theorem C4_counterexample :
    bulkDeleteAssert 0 [Msg.mk 1 (-1814400)] = some false ∧
    (Msg.mk 1 (-1814400)).timestamp ≤ 0 - 2 * weekSecs := by
  constructor
  · rfl
  · decide

/-- C4 (amended): for every nonempty batch, the `debug_assert!` at the top of
`bulk_delete` checks that the oldest message in the batch (the last, in
newest-first order) is strictly newer than two weeks old — it passes exactly
when `now - 2 weeks < timestamp` and fails exactly when the oldest message is
at least two weeks old. -/
theorem C4_assert_checks_newer_than_two_weeks (now : Int) (messages : List Msg)
    (h : messages ≠ []) :
    (bulkDeleteAssert now messages = some true ↔
      now - 2 * weekSecs < (messages.getLast h).timestamp) ∧
    (bulkDeleteAssert now messages = some false ↔
      (messages.getLast h).timestamp ≤ now - 2 * weekSecs) := by
  unfold bulkDeleteAssert
  rw [getElem_opt_last messages h]
  simp only [Option.map_some']
  constructor
  · simp
  · constructor
    · intro hsome
      injection hsome with hdec
      rw [decide_eq_false_iff_not] at hdec
      omega
    · intro hle
      have hdec : decide (now - 2 * weekSecs < (messages.getLast h).timestamp) = false := by
        rw [decide_eq_false_iff_not]
        omega
      rw [hdec]

/-- Witness for `C4_assert_checks_newer_than_two_weeks` on a one-message
batch that is one day old. -/
theorem C4_witness :
    ([Msg.mk 1 (-86400)] ≠ ([] : List Msg)) ∧
    ((bulkDeleteAssert 0 [Msg.mk 1 (-86400)] = some true ↔
        0 - 2 * weekSecs <
          (([Msg.mk 1 (-86400)].getLast (by decide)).timestamp)) ∧
      (bulkDeleteAssert 0 [Msg.mk 1 (-86400)] = some false ↔
        (([Msg.mk 1 (-86400)].getLast (by decide)).timestamp) ≤
          0 - 2 * weekSecs)) :=
  ⟨by decide, C4_assert_checks_newer_than_two_weeks 0 [Msg.mk 1 (-86400)] (by decide)⟩

/-- C10: `bulk_delete` needs a nonempty slice: the indexing inside its
leading debug assertion fails (models the debug-build panic) exactly on the
empty slice and evaluates on every nonempty one; and `purge_old`'s emptiness
guard covers only the whole fetched window — a window consisting of one
20-day-old message passes the guard (the prompt is sent) while the bulk band
for that window is empty. -/
theorem C10_empty_slice_precondition (now : Int) (messages : List Msg)
    (h : messages ≠ []) :
    bulkDeleteAssert now [] = none ∧
    (bulkDeleteAssert now messages).isSome = true ∧
    ((purge_old 0 none [Except.ok (Msg.mk 1 (-(20 * 86400)))] none).1.any
        (fun a => a.isPrompt) = true ∧
      bulk_band (0 - (13 * daySecs + 12 * 3600))
        [Msg.mk 1 (-(20 * 86400))] = []) := by
  refine ⟨rfl, ?_, by constructor <;> rfl⟩
  unfold bulkDeleteAssert
  rw [getElem_opt_last messages h]
  rfl

/-- Witness for `C10_empty_slice_precondition` on a one-message slice. -/
theorem C10_witness :
    ([Msg.mk 1 0] ≠ ([] : List Msg)) ∧
    (bulkDeleteAssert 5 [] = none ∧
      (bulkDeleteAssert 5 [Msg.mk 1 0]).isSome = true ∧
      ((purge_old 0 none [Except.ok (Msg.mk 1 (-(20 * 86400)))] none).1.any
          (fun a => a.isPrompt) = true ∧
        bulk_band (0 - (13 * daySecs + 12 * 3600))
          [Msg.mk 1 (-(20 * 86400))] = [])) :=
  ⟨by decide, C10_empty_slice_precondition 5 [Msg.mk 1 0] (by decide)⟩

/-- No branch of `purge_old` ever invokes a deletion executor: `bulk_delete`
and `slow_bulk_delete` are dead code in main.rs. -/
theorem purge_old_no_exec (now : Int) (dr : Option Bool)
    (history : List (Except TransportError Msg))
    (interaction : Option InteractionOutcome) :
    (purge_old now dr history interaction).1.all (fun a => !a.isExec) = true := by
  cases hmb : messages_before (now - 7 * daySecs) history with
  | error e => simp [purge_old, hmb, Action.isExec]
  | ok messages =>
    cases interaction with
    | none =>
      by_cases hemp : messages.isEmpty <;>
        simp [purge_old, hmb, hemp, Action.isExec]
    | some io =>
      by_cases hemp : messages.isEmpty
      · simp [purge_old, hmb, hemp, Action.isExec]
      · cases hdis : io.disableResult with
        | error e => simp [purge_old, hmb, hemp, hdis, Action.isExec]
        | ok u =>
          cases hfol : io.followupResult with
          | error e => simp [purge_old, hmb, hemp, hdis, hfol, Action.isExec]
          | ok v => simp [purge_old, hmb, hemp, hdis, hfol, Action.isExec]

/-- C1 fails on the code: in an invocation whose window holds one 8-day-old
message, where the user presses "yes" within the collector window and both
response calls succeed, the command completes with `Ok` and sends the
acknowledgment followup, yet no branch of `purge_old` (this run or any
other) ever invokes the Throttled Deletion Executor on the plan. -/
theorem C1_executor_never_invoked :
    ((purge_old 0 none [Except.ok (Msg.mk 1 (-(8 * 86400)))]
        (some (InteractionOutcome.mk Choice.yes (Except.ok ()) (Except.ok ())))).2
      = Except.ok ()) ∧
    ((purge_old 0 none [Except.ok (Msg.mk 1 (-(8 * 86400)))]
        (some (InteractionOutcome.mk Choice.yes (Except.ok ()) (Except.ok ())))).1.any
      (fun a => a.isFollowup) = true) ∧
    (∀ (now : Int) (dr : Option Bool)
        (history : List (Except TransportError Msg))
        (interaction : Option InteractionOutcome),
      (purge_old now dr history interaction).1.all (fun a => !a.isExec) = true) :=
  ⟨rfl, rfl, purge_old_no_exec⟩

/-- C2 fails on the code: for a window of 50 messages all newer than the
bulk cutoff, `slow_index` is `None`, so `bulk_count = slow_index.unwrap_or(0)
= 0` and both bands are empty — the 50-message window is not reconstructed
(the claim expects `bulk_band` to be the whole window). -/
theorem C2_all_new_window_has_no_bands :
    slow_index (-100) ((List.range 50).map (fun i => Msg.mk i 0)) = none ∧
    bulk_count (-100) ((List.range 50).map (fun i => Msg.mk i 0)) = 0 ∧
    bulk_band (-100) ((List.range 50).map (fun i => Msg.mk i 0)) ++
        slow_band (-100) ((List.range 50).map (fun i => Msg.mk i 0)) = [] ∧
    ((List.range 50).map (fun i => Msg.mk i 0)).length = 50 :=
  ⟨rfl, rfl, rfl, rfl⟩

/-- Counterexample to C3 as stated: when the button-disable re-render fails
with a transport error after a "yes" press was captured, the invocation
aborts with that error (the `?` after `inspect_err` propagates it) and the
flow does not continue — the acknowledgment followup is never sent. -/
theorem C3_counterexample :
    ((purge_old 0 none [Except.ok (Msg.mk 1 (-(8 * 86400)))]
        (some (InteractionOutcome.mk Choice.yes
          (Except.error (TransportError.mk 7)) (Except.ok ())))).2
      = Except.error (TransportError.mk 7)) ∧
    ((purge_old 0 none [Except.ok (Msg.mk 1 (-(8 * 86400)))]
        (some (InteractionOutcome.mk Choice.yes
          (Except.error (TransportError.mk 7)) (Except.ok ())))).1.all
      (fun a => !a.isFollowup) = true) :=
  ⟨rfl, rfl⟩

/-- C3 (amended): a transport error while re-rendering the confirmation
message to disable the buttons is logged and then propagated: the invocation
aborts with that `TransportError` and the followup acknowledgment of the
captured confirmation is never attempted. -/
theorem C3_disable_error_logged_then_propagated (now : Int) (dr : Option Bool)
    (history : List (Except TransportError Msg)) (io : InteractionOutcome)
    (e : TransportError) (msgs : List Msg)
    (hfetch : messages_before (now - 7 * daySecs) history = Except.ok msgs)
    (hne : msgs.isEmpty = false)
    (hdis : io.disableResult = Except.error e) :
    (purge_old now dr history (some io)).2 = Except.error e ∧
    Action.logTransportError e ∈ (purge_old now dr history (some io)).1 ∧
    (purge_old now dr history (some io)).1.all (fun a => !a.isFollowup) = true := by
  refine ⟨?_, ?_, ?_⟩ <;>
    simp [purge_old, hfetch, hne, hdis, Action.isFollowup]

/-- Witness for `C3_disable_error_logged_then_propagated` at a concrete
invocation with one 8-day-old message and a failing disable call. -/
theorem C3_witness :
    (messages_before (0 - 7 * daySecs) [Except.ok (Msg.mk 1 (-(8 * 86400)))]
        = Except.ok [Msg.mk 1 (-(8 * 86400))]) ∧
    ([Msg.mk 1 (-(8 * 86400))].isEmpty = false) ∧
    ((InteractionOutcome.mk Choice.yes (Except.error (TransportError.mk 7))
        (Except.ok ())).disableResult = Except.error (TransportError.mk 7)) ∧
    ((purge_old 0 none [Except.ok (Msg.mk 1 (-(8 * 86400)))]
        (some (InteractionOutcome.mk Choice.yes
          (Except.error (TransportError.mk 7)) (Except.ok ())))).2
        = Except.error (TransportError.mk 7) ∧
      Action.logTransportError (TransportError.mk 7) ∈
        (purge_old 0 none [Except.ok (Msg.mk 1 (-(8 * 86400)))]
          (some (InteractionOutcome.mk Choice.yes
            (Except.error (TransportError.mk 7)) (Except.ok ())))).1 ∧
      (purge_old 0 none [Except.ok (Msg.mk 1 (-(8 * 86400)))]
          (some (InteractionOutcome.mk Choice.yes
            (Except.error (TransportError.mk 7)) (Except.ok ())))).1.all
        (fun a => !a.isFollowup) = true) :=
  ⟨rfl, rfl, rfl,
    C3_disable_error_logged_then_propagated 0 none
      [Except.ok (Msg.mk 1 (-(8 * 86400)))]
      (InteractionOutcome.mk Choice.yes (Except.error (TransportError.mk 7))
        (Except.ok ()))
      (TransportError.mk 7) [Msg.mk 1 (-(8 * 86400))] rfl rfl rfl⟩

/-- C5 fails on the code: the conflict action of the
`admin_bot_spam_channel` upsert sets only `guild_id = excluded(guild_id)`,
so a second invocation for the same guild keeps the previously stored
channel (10) instead of storing the supplied one (20); only the fresh-insert
path stores the supplied channel. -/
theorem C5_upsert_keeps_previous_channel :
    (admin_bot_spam_channel (Db.mk [1] [BotSpamRow.mk 10 1]) 1 20).botSpamRows
        = [BotSpamRow.mk 10 1] ∧
    (admin_bot_spam_channel (Db.mk [1] [BotSpamRow.mk 10 1]) 1 20).botSpamRows
        ≠ [BotSpamRow.mk 20 1] ∧
    (admin_bot_spam_channel (Db.mk [] []) 1 20).botSpamRows
        = [BotSpamRow.mk 20 1] :=
  ⟨rfl, by decide, rfl⟩

end PondSlime
